import Mathlib

/-!
Shallow embedding of the SQL-generation layer of the `pks-os/sequelize`
repository excerpt: the PostgreSQL and MariaDB query-generator classes
(`PostgresQueryGeneratorTypeScript`, `MariaDbQueryGeneratorTypeScript`) and
the `AbstractQueryInterfaceInternal.fetchDatabaseVersionRaw` orchestration
method.  Pure string-building methods become Lean functions; methods that can
throw return `Except QueryError _`.  External collaborators that are not part
of the excerpt (value escaper, identifier quoter, name generators, JSON path
builder, the raw-query executor) are modelled from the spec, each with a doc
comment saying so.
-/

/-- Error kinds of this layer, following the spec's error-handling design:
configuration errors (invalid/incompatible option combinations), type-mismatch
errors (an operation given a value of the wrong abstract type), and assertion
failures (the query-interface internal's single-row assertion).  The source
throws JavaScript `Error`/`TypeError`/`AssertionError` objects at the
corresponding places; the embedding records the kind and the message. -/
inductive QueryError where
  | configuration (msg : String)
  | typeMismatch (msg : String)
  | assertion (msg : String)
deriving DecidableEq

/-- Table reference resolved to a table name and a schema.  Modelled from the
spec: the Table Reference Resolver collaborator (`extractTableDetails`)
normalizes a table-or-model reference into `\x7b tableName, schema \x7d`; the
embedding takes the already-resolved pair as input. -/
structure TableReference where
  tableName : String
  schema : String
deriving DecidableEq

/-- Duplicates every occurrence of the character `q` in a character list.
Helper for the quoting collaborators. -/
def dupChar (q : Char) : List Char → List Char
  | [] => []
  | c :: cs => if c = q then c :: c :: dupChar q cs else c :: dupChar q cs

/-- Modelled from the spec: the Identifier/Value Escaper collaborator's
`quoteIdentifier` for the Postgres family — wraps the name in double quotes,
doubling embedded double quotes. -/
def quoteIdentifier (s : String) : String :=
  "\"" ++ (String.mk (dupChar '"' s.data) ++ "\"")

/-- Modelled from the spec: the Identifier/Value Escaper collaborator's
`quoteIdentifier` for the MariaDB family — wraps the name in backticks,
doubling embedded backticks. -/
def mdQuoteIdentifier (s : String) : String :=
  "`" ++ (String.mk (dupChar '`' s.data) ++ "`")

/-- Modelled from the spec: the Identifier/Value Escaper collaborator's
`escape` for string values — wraps the text in single quotes, doubling
embedded single quotes. -/
def escapeString (s : String) : String :=
  "'" ++ (String.mk (dupChar '\'' s.data) ++ "'")

/-- Joins a list of strings with a separator, like JavaScript `Array#join`. -/
def joinWith (sep : String) : List String → String
  | [] => ""
  | x :: xs =>
    match xs with
    | [] => x
    | _ :: _ => x ++ sep ++ joinWith sep xs

/-- Modelled from the spec: the Identifier/Value Escaper collaborator's
`escape` applied to an array of strings (Postgres array literal). -/
def escapeStringList (xs : List String) : String :=
  "ARRAY[" ++ (joinWith "," (xs.map escapeString) ++ "]")

/-- Modelled from the spec: `quoteTable(ref)` for the Postgres family —
schema-qualified double-quoted table name. -/
def quoteTable (t : TableReference) : String :=
  quoteIdentifier t.schema ++ "." ++ quoteIdentifier t.tableName

/-- Modelled from the spec: `quoteTable(ref)` for the MariaDB family —
schema-qualified backtick-quoted table name. -/
def mdQuoteTable (t : TableReference) : String :=
  mdQuoteIdentifier t.schema ++ "." ++ mdQuoteIdentifier t.tableName

/-- The SQL Fragment Joiner: combines an ordered sequence of fragments,
skipping empty ones, separating the rest with single spaces
(`joinSQLFragments` from `utils/join-sql-fragments`, consumed by both
generators). -/
def joinSQLFragments (fragments : List String) : String :=
  joinWith " " (fragments.filter (fun f => f ≠ ""))

/-- Modelled from the spec: `generateIndexName(table, \x7bfields\x7d)` — a
deterministic, dialect-stable index name derived from the table name and the
ordered column list. -/
def generateIndexName (table : TableReference) (fields : List String) : String :=
  table.tableName ++ "_" ++ joinWith "_" fields

/-- Modelled from the spec: `generateEnumName(table, column, \x7breplacement?\x7d)` —
the canonical name of the enum type backing a column, with a distinct
temporary variant when `replacement` is set. -/
def generateEnumName (tableName columnName : String) (replacement : Bool) : String :=
  "enum_" ++ tableName ++ "_" ++ columnName ++ (if replacement then "_new" else "")

/-- Modelled from the spec: `generateSequenceName(table, column)` — the name
of the sequence object backing an auto-increment column. -/
def generateSequenceName (tableName columnName : String) : String :=
  tableName ++ "_" ++ columnName ++ "_seq"

/-- A JavaScript options object for `removeIndexQuery`, modelled as a finite
key/value map (boolean-valued flags).  Keys absent from the map are
`undefined` and hence falsy. -/
def OptionsBag := List (String × Bool)

/-- Reads a boolean option from an optional options bag; a missing bag or a
missing key is falsy, like `options?.key` in the source. -/
def getOpt : Option OptionsBag → String → Bool
  | none, _ => false
  | some o, k =>
    match o.lookup k with
    | some b => b
    | none => false

/-- The option keys of `RemoveIndexQueryOptions` declared by the abstract
generator.  Modelled from the spec: the abstract layer's supportable-option
set for `removeIndexQuery` (`ifExists`, `cascade`, `concurrently`). -/
def REMOVE_INDEX_QUERY_SUPPORTABLE_OPTIONS : List String :=
  ["concurrently", "ifExists", "cascade"]

/-- The MariaDB generator's supported-option set for `removeIndexQuery`
(source: `REMOVE_INDEX_QUERY_SUPPORTED_OPTIONS = new Set(['ifExists'])`). -/
def REMOVE_INDEX_QUERY_SUPPORTED_OPTIONS : List String := ["ifExists"]

/-- Option keys of a bag that are not in the given supported set,
in bag order. -/
def invalidOptionKeys (supported : List String) (o : OptionsBag) : List String :=
  (o.map Prod.fst).filter (fun k => !supported.contains k)

/-- Modelled from the spec: `rejectInvalidOptions` (from `utils/check`, not in
the excerpt) — rejects, at call time, any provided option key not in the
operation's supported-option set for the active dialect, reporting which keys
are invalid. -/
def rejectInvalidOptions (operation dialectName : String)
    (supportable supported : List String) (o : OptionsBag) : Option QueryError :=
  let _ := supportable
  let invalid := invalidOptionKeys supported o
  if invalid.isEmpty then none
  else some (QueryError.configuration
    ("The following options are not supported by " ++ operation ++ " in "
      ++ dialectName ++ " dialect: " ++ joinWith ", " invalid))

namespace Postgres

/-- Source `PostgresQueryGeneratorTypeScript.removeIndexQuery`: rejects the
`cascade` + `concurrently` combination before building any SQL, derives the
index name from a column list when needed, and assembles the DROP INDEX
statement with `joinSQLFragments`. -/
def removeIndexQuery (tableName : TableReference)
    (indexNameOrAttributes : Sum String (List String))
    (options : Option OptionsBag) : Except QueryError String :=
  if getOpt options "cascade" && getOpt options "concurrently" then
    Except.error (QueryError.configuration
      "Cannot specify both concurrently and cascade options in removeIndexQuery for postgres dialect")
  else
    let table := tableName
    let indexName :=
      match indexNameOrAttributes with
      | Sum.inr attrs => generateIndexName table attrs
      | Sum.inl n => n
    Except.ok (joinSQLFragments
      [ "DROP INDEX",
        if getOpt options "concurrently" then "CONCURRENTLY" else "",
        if getOpt options "ifExists" then "IF EXISTS" else "",
        quoteIdentifier table.schema ++ "." ++ quoteIdentifier indexName,
        if getOpt options "cascade" then "CASCADE" else "" ])

/-- A JSON path segment: an array index (number) or an object key (string). -/
inductive JsonSegment where
  | num (n : Nat)
  | str (s : String)
deriving DecidableEq

/-- Source escaping of a single path segment (`this.escape(path[0])`): a
number is escaped as a numeric literal, a string as a quoted literal. -/
def escapeSegment : JsonSegment → String
  | JsonSegment.num n => toString n
  | JsonSegment.str s => escapeString s

/-- JavaScript `String(value)` applied to a path segment. -/
def segToString : JsonSegment → String
  | JsonSegment.num n => toString n
  | JsonSegment.str s => s

/-- Source `PostgresQueryGeneratorTypeScript.jsonPathExtractionQuery`:
single-segment paths use `->`/`->>` with the segment escaped as-is,
longer paths use `#>`/`#>>` with the path escaped as an array of strings. -/
def jsonPathExtractionQuery (sqlExpression : String)
    (path : List JsonSegment) (unquote : Bool) : String :=
  let operator :=
    if path.length = 1 then (if unquote then "->>" else "->")
    else (if unquote then "#>>" else "#>")
  let pathSql :=
    if h : path.length = 1 then
      escapeSegment (path.get ⟨0, by omega⟩)
    else
      escapeStringList (path.map segToString)
  sqlExpression ++ operator ++ pathSql

/-- Source `versionQuery` of the Postgres generator. -/
def versionQuery : String := "SHOW SERVER_VERSION"

/-- An abstract data type instance, covering the cases the excerpt
distinguishes: the Postgres `ENUM` data type (with its SQL type name and its
value list), the `ARRAY` data type (with its element type), and any other
type (with its SQL rendering). -/
inductive DataType where
  | enum (sqlName : String) (values : List String)
  | array (elem : DataType)
  | other (sqlName : String)
deriving DecidableEq

/-- Whether the data type is an instance of the `ENUM` class. -/
def DataType.isEnum : DataType → Bool
  | DataType.enum _ _ => true
  | _ => false

/-- Whether the data type is an `ARRAY` whose element type is an `ENUM`
(source condition `columnDef.type instanceof ARRAY &&
columnDef.type.options.type instanceof ENUM`). -/
def DataType.isArrayOfEnum : DataType → Bool
  | DataType.array e => e.isEnum
  | _ => false

/-- Modelled from the spec: `DataTypeInstance#toSql` (the data-type classes
are not in the excerpt) — the SQL type name of the data type; for an enum,
its enum type name. -/
def DataType.toSql : DataType → String
  | DataType.enum n _ => n
  | DataType.array e => e.toSql ++ "[]"
  | DataType.other s => s

/-- Source `dropEnumQuery` (string-name case): DROP TYPE IF EXISTS with a
trailing space, exactly as the source writes it. -/
def dropEnumQuery (schema : String) (name : String) : String :=
  "DROP TYPE IF EXISTS " ++ (quoteIdentifier schema ++ "." ++ quoteIdentifier name ++ "; ")

/-- The DO-block statement built by `createEnumQuery` for an enum type:
idempotent creation whose body swallows the `duplicate_object` error. -/
def createEnumSql (schema enumName : String) (values : List String) : String :=
  "DO " ++
    (escapeString
      ("BEGIN CREATE TYPE " ++ quoteIdentifier schema ++ "." ++ quoteIdentifier enumName
        ++ "  AS " ++ ("ENUM(" ++ joinWith ", " (values.map escapeString) ++ ")")
        ++ "; EXCEPTION WHEN duplicate_object THEN null; END")
    ++ ";")

/-- Options of `createEnumQuery` (source `CreateEnumQueryOptions`). -/
structure CreateEnumQueryOptions where
  force : Bool
deriving DecidableEq

/-- Reads `options?.force === true`. -/
def getForce : Option CreateEnumQueryOptions → Bool
  | none => false
  | some o => o.force

/-- Source `PostgresQueryGeneratorTypeScript.createEnumQuery`: throws a
TypeError for any data type that is not an `ENUM` instance; otherwise builds
the idempotent DO-block creation, prefixed by a drop when `force` is set. -/
def createEnumQuery (tableOrModel : TableReference) (dataType : DataType)
    (options : Option CreateEnumQueryOptions) : Except QueryError String :=
  match dataType with
  | DataType.enum name values =>
    let sql := createEnumSql tableOrModel.schema name values
    if getForce options = true then
      Except.ok (dropEnumQuery tableOrModel.schema name ++ sql)
    else
      Except.ok sql
  | _ =>
    Except.error (QueryError.typeMismatch
      "createEnumQuery expects an instance of the ENUM DataType")

/-- Options of `addValueToEnumQuery` (source `AddValueToEnumQueryOptions`);
an absent field is JavaScript `undefined`. -/
structure AddValueToEnumQueryOptions where
  before : Option String
  after : Option String
deriving DecidableEq

/-- Source `PostgresQueryGeneratorTypeScript.addValueToEnumQuery`: an
`ALTER TYPE ... ADD VALUE IF NOT EXISTS` statement (with the source's double
space after `TYPE`), then `BEFORE` if `options?.before` is set, otherwise
`AFTER` if `options?.after` is set, otherwise no positioning clause. -/
def addValueToEnumQuery (schema enumName value : String)
    (options : AddValueToEnumQueryOptions) : String :=
  let sql := "ALTER TYPE  " ++ (quoteIdentifier schema ++ "." ++ quoteIdentifier enumName
    ++ " ADD VALUE IF NOT EXISTS " ++ escapeString value)
  match options.before with
  | some b => sql ++ " BEFORE " ++ escapeString b
  | none =>
    match options.after with
    | some a => sql ++ " AFTER " ++ escapeString a
    | none => sql

end Postgres

namespace MariaDb

/-- Source `MariaDbQueryGeneratorTypeScript.removeIndexQuery`: validates the
options bag against the dialect's supported set (`ifExists` only) via
`rejectInvalidOptions`, then builds `DROP INDEX ... ON ...`. -/
def removeIndexQuery (tableName : TableReference)
    (indexNameOrAttributes : Sum String (List String))
    (options : Option OptionsBag) : Except QueryError String :=
  let validation :=
    match options with
    | some o =>
      rejectInvalidOptions "removeIndexQuery" "mariadb"
        REMOVE_INDEX_QUERY_SUPPORTABLE_OPTIONS REMOVE_INDEX_QUERY_SUPPORTED_OPTIONS o
    | none => none
  match validation with
  | some e => Except.error e
  | none =>
    let indexName :=
      match indexNameOrAttributes with
      | Sum.inr attrs => generateIndexName tableName attrs
      | Sum.inl n => n
    Except.ok (joinSQLFragments
      [ "DROP INDEX",
        if getOpt options "ifExists" then "IF EXISTS" else "",
        mdQuoteIdentifier indexName,
        "ON",
        mdQuoteTable tableName ])

/-- Modelled from the spec: `buildJsonPath(path)` (from `utils/json`, not in
the excerpt) — renders an ordered path of array-index / object-key segments
as a dialect-neutral JSON path token rooted at `$`. -/
def buildJsonPath (path : List Postgres.JsonSegment) : String :=
  "$" ++ String.join (path.map (fun seg =>
    match seg with
    | Postgres.JsonSegment.num n => "[" ++ toString n ++ "]"
    | Postgres.JsonSegment.str s => "." ++ s))

/-- Source `MariaDbQueryGeneratorTypeScript.jsonPathExtractionQuery`: a
`json_extract` call, wrapped in `json_unquote` when unquoting, and otherwise
in the semantically inert `json_compact` call that defeats MariaDB's
implicit-unquote heuristic. -/
def jsonPathExtractionQuery (sqlExpression : String)
    (path : List Postgres.JsonSegment) (unquote : Bool) : String :=
  let extractQuery :=
    "json_extract(" ++ sqlExpression ++ "," ++ escapeString (buildJsonPath path) ++ ")"
  if unquote then "json_unquote(" ++ extractQuery ++ ")"
  else "json_compact(" ++ extractQuery ++ ")"

/-- Source `versionQuery` of the MariaDB generator. -/
def versionQuery : String := "SELECT VERSION() as `version`"

end MariaDb

namespace Postgres

/-- A normalized change-column attribute descriptor, as produced by
`normalizeChangeColumnAttribute` (modelled from the spec: normalization
happens before DDL synthesis; the embedding takes the normalized shape).
The `comment` field distinguishes an absent key (`none`), a key set to null
(`some none`) and a key set to a string (`some (some c)`), mirroring the
source's `'comment' in columnDef` / `columnDef.comment == null` tests. -/
structure NormalizedColDef where
  type? : Option DataType
  autoIncrement : Bool
  comment : Option (Option String)
deriving DecidableEq

/-- Modelled from the spec: the abstract generator's `changeColumnsQuery`
(`super.changeColumnsQuery`, not in the excerpt) — a single newline-free,
semicolon-terminated `ALTER TABLE` statement covering the column-type
changes, or the empty string when there is nothing to alter. -/
def abstractChangeColumnsQuery (table : TableReference)
    (defs : List (String × NormalizedColDef)) : String :=
  let clauses := defs.filterMap (fun p =>
    match p.2.type? with
    | some t => some ("ALTER COLUMN " ++ quoteIdentifier p.1 ++ " SET DATA TYPE " ++ t.toSql)
    | none => none)
  if clauses.isEmpty then ""
  else "ALTER TABLE " ++ (quoteTable table ++ " " ++ joinWith ", " clauses ++ ";")

/-- The `COMMENT ON COLUMN` statement the Postgres `changeColumnsQuery` pushes
for a column definition that contains the `comment` key (`IS NULL` clears the
comment when the value is null). -/
def commentStmt (table : TableReference) (columnName : String)
    (comment : Option String) : String :=
  "COMMENT ON COLUMN " ++
    (quoteTable table ++ "." ++ quoteIdentifier columnName ++
      (match comment with
       | none => " IS NULL;"
       | some c => " IS " ++ escapeString c ++ ";"))

/-- The `CREATE SEQUENCE ... OWNED BY` statement the Postgres
`changeColumnsQuery` unshifts for an auto-increment column definition. -/
def seqCreateStmt (table : TableReference) (columnName : String) : String :=
  "CREATE SEQUENCE IF NOT EXISTS " ++
    (quoteIdentifier (generateSequenceName table.tableName columnName) ++
      " OWNED BY " ++ quoteTable table ++ "." ++ quoteIdentifier columnName ++ ";")

/-- The `ALTER TYPE ... RENAME TO` statement that renames the temporary enum
type to the canonical enum name. -/
def renameEnumStmt (table : TableReference) (columnName : String) : String :=
  "ALTER TYPE " ++
    (quoteIdentifier table.schema ++ "." ++
      quoteIdentifier (generateEnumName table.tableName columnName true) ++
      " RENAME TO " ++ quoteIdentifier (generateEnumName table.tableName columnName false) ++ ";")

/-- One iteration of the loop in the Postgres `changeColumnsQuery` over the
normalized column definitions, acting on the `out` statement list:
a `comment` key pushes a COMMENT statement, `autoIncrement` unshifts a
CREATE SEQUENCE statement, and an enum (or array-of-enum) type unshifts the
`createEnumQuery` result and pushes the drop-old-enum and
rename-temporary-enum statements. -/
def processColumn (table : TableReference) (out : List String)
    (p : String × NormalizedColDef) : Except QueryError (List String) :=
  let columnName := p.1
  let columnDef := p.2
  let out1 :=
    match columnDef.comment with
    | none => out
    | some c => out ++ [commentStmt table columnName c]
  let out2 :=
    if columnDef.autoIncrement then seqCreateStmt table columnName :: out1 else out1
  match columnDef.type? with
  | some dt =>
    if dt.isEnum || dt.isArrayOfEnum then
      match createEnumQuery table dt none with
      | Except.error e => Except.error e
      | Except.ok ce =>
        Except.ok ((ce :: out2) ++
          [ dropEnumQuery table.schema (generateEnumName table.tableName columnName false),
            renameEnumStmt table columnName ])
    else Except.ok out2
  | none => Except.ok out2

/-- The statement list built by the Postgres `changeColumnsQuery`: the
abstract alter statement (when non-empty) followed by the per-column loop. -/
def changeColumnsStatements (table : TableReference)
    (defs : List (String × NormalizedColDef)) : Except QueryError (List String) :=
  let sql := abstractChangeColumnsQuery table defs
  let init := if sql = "" then [] else [sql]
  List.foldlM (processColumn table) init defs

/-- Source `PostgresQueryGeneratorTypeScript.changeColumnsQuery`: the
statement list joined with single spaces (`out.join(' ')`). -/
def changeColumnsQuery (table : TableReference)
    (defs : List (String × NormalizedColDef)) : Except QueryError String :=
  match changeColumnsStatements table defs with
  | Except.error e => Except.error e
  | Except.ok out => Except.ok (joinWith " " out)

/-- The statements a good (non-throwing) column definition contributes in
front of the alter statement, in final order: the enum-creation DO block
(if the type is an enum), then the CREATE SEQUENCE statement (if
auto-increment). -/
def colFront (table : TableReference) (p : String × NormalizedColDef) : List String :=
  (match p.2.type? with
   | some (DataType.enum n vs) => [createEnumSql table.schema n vs]
   | _ => []) ++
  (if p.2.autoIncrement then [seqCreateStmt table p.1] else [])

/-- The statements a good column definition contributes after the alter
statement, in final order: the COMMENT statement (if the `comment` key is
present), then the drop-old-enum and rename-temporary-enum statements (if the
type is an enum). -/
def colBack (table : TableReference) (p : String × NormalizedColDef) : List String :=
  (match p.2.comment with
   | none => []
   | some c => [commentStmt table p.1 c]) ++
  (match p.2.type? with
   | some (DataType.enum _ _) =>
     [ dropEnumQuery table.schema (generateEnumName table.tableName p.1 false),
       renameEnumStmt table p.1 ]
   | _ => [])

/-- Whether a column definition's type takes the enum branch but makes
`createEnumQuery` throw: an array-of-enum type, which the branch condition
admits but the `instanceof ENUM` check rejects. -/
def isBadEnumCol : Option DataType → Bool
  | some (DataType.array (DataType.enum _ _)) => true
  | _ => false

end Postgres

/-- Newline-freeness of a string. -/
def nlFree (s : String) : Prop := '\n' ∉ s.data

instance (s : String) : Decidable (nlFree s) :=
  inferInstanceAs (Decidable ('\n' ∉ s.data))

/-- Newline-freeness of the payload of an optional comment value. -/
def optNlFree : Option (Option String) → Prop
  | some (some c) => nlFree c
  | _ => True

instance : (o : Option (Option String)) → Decidable (optNlFree o)
  | some (some c) => inferInstanceAs (Decidable (nlFree c))
  | some none => inferInstanceAs (Decidable True)
  | none => inferInstanceAs (Decidable True)

/-- Newline-freeness of all names and values mentioned by a data type. -/
def dtNlFree : Postgres.DataType → Prop
  | Postgres.DataType.enum n vs => nlFree n ∧ ∀ v ∈ vs, nlFree v
  | Postgres.DataType.array e => dtNlFree e
  | Postgres.DataType.other s => nlFree s

instance dtNlFree.instDec : (t : Postgres.DataType) → Decidable (dtNlFree t)
  | Postgres.DataType.enum n vs => inferInstanceAs (Decidable (nlFree n ∧ ∀ v ∈ vs, nlFree v))
  | Postgres.DataType.array e => dtNlFree.instDec e
  | Postgres.DataType.other s => inferInstanceAs (Decidable (nlFree s))

/-- Newline-freeness of an optional data type. -/
def typeNlFree : Option Postgres.DataType → Prop
  | some t => dtNlFree t
  | none => True

instance : (o : Option Postgres.DataType) → Decidable (typeNlFree o)
  | some t => inferInstanceAs (Decidable (dtNlFree t))
  | none => inferInstanceAs (Decidable True)

/-- Newline-freeness of everything a column definition contributes to the
generated DDL. -/
def defNlFree (p : String × Postgres.NormalizedColDef) : Prop :=
  nlFree p.1 ∧ optNlFree p.2.comment ∧ typeNlFree p.2.type?

instance (p : String × Postgres.NormalizedColDef) : Decidable (defNlFree p) :=
  inferInstanceAs (Decidable (_ ∧ _ ∧ _))

/-- Newline-freeness of a table reference's name and schema. -/
def tableNlFree (t : TableReference) : Prop := nlFree t.tableName ∧ nlFree t.schema

instance (t : TableReference) : Decidable (tableNlFree t) :=
  inferInstanceAs (Decidable (_ ∧ _))

/-- Whether a statement, ignoring trailing spaces, ends with the statement
terminator `;`. -/
def endsSemi (s : String) : Bool :=
  (s.data.reverse.dropWhile (fun c => c == ' ')).head? == some ';'

/-- Modelled from the spec: the raw-query execution collaborator
(`sequelize.queryRaw` with `plain: true`) — executes the query, parses the
result rows, and in plain mode yields the first row, or null (here `none`)
when there are no rows. -/
def queryRawPlain (rows : List String) : Option String :=
  rows.head?

/-- Source `AbstractQueryInterfaceInternal.fetchDatabaseVersionRaw`: executes
the dialect generator's version query through the raw-query executor in plain
mode and asserts that the result is not null.  The executor collaborator is
passed as a function from the SQL text to the rows it yields. -/
def fetchDatabaseVersionRaw (queryRawRows : String → List String)
    (versionQuery : String) : Except QueryError String :=
  let out := queryRawPlain (queryRawRows versionQuery)
  match out with
  | none => Except.error (QueryError.assertion "out != null")
  | some r => Except.ok r

/-! Helper lemmas about the string and list machinery. -/

theorem mem_dupChar {c q : Char} {l : List Char} (h : c ∈ dupChar q l) : c ∈ l := by
  induction l with
  | nil => simp [dupChar] at h
  | cons x xs ih =>
    by_cases hx : x = q
    · rw [dupChar, if_pos hx] at h
      rcases List.mem_cons.mp h with h | h
      · exact List.mem_cons.mpr (Or.inl h)
      rcases List.mem_cons.mp h with h | h
      · exact List.mem_cons.mpr (Or.inl h)
      · exact List.mem_cons.mpr (Or.inr (ih h))
    · rw [dupChar, if_neg hx] at h
      rcases List.mem_cons.mp h with h | h
      · exact List.mem_cons.mpr (Or.inl h)
      · exact List.mem_cons.mpr (Or.inr (ih h))

theorem nlFree_append {a b : String} (ha : nlFree a) (hb : nlFree b) : nlFree (a ++ b) := by
  intro h
  rw [String.data_append] at h
  rcases List.mem_append.mp h with h | h
  · exact ha h
  · exact hb h

theorem nlFree_mk {l : List Char} (h : '\n' ∉ l) : nlFree (String.mk l) := h

theorem nlFree_quoteIdentifier {s : String} (h : nlFree s) : nlFree (quoteIdentifier s) := by
  refine nlFree_append (by decide) (nlFree_append ?_ (by decide))
  intro hm
  exact h (mem_dupChar hm)

theorem nlFree_escapeString {s : String} (h : nlFree s) : nlFree (escapeString s) := by
  refine nlFree_append (by decide) (nlFree_append ?_ (by decide))
  intro hm
  exact h (mem_dupChar hm)

theorem nlFree_joinWith {sep : String} (hsep : nlFree sep) {l : List String}
    (h : ∀ s ∈ l, nlFree s) : nlFree (joinWith sep l) := by
  induction l with
  | nil => intro hm; simp [joinWith] at hm
  | cons x xs ih =>
    cases xs with
    | nil => simpa [joinWith] using h x (by simp)
    | cons y ys =>
      rw [joinWith]
      exact nlFree_append (nlFree_append (h x (by simp)) hsep)
        (ih (fun s hs => h s (List.mem_cons.mpr (Or.inr hs))))

theorem nlFree_quoteTable {t : TableReference} (h : tableNlFree t) : nlFree (quoteTable t) :=
  nlFree_append (nlFree_append (nlFree_quoteIdentifier h.2) (by decide))
    (nlFree_quoteIdentifier h.1)

theorem nlFree_generateSequenceName {t c : String} (ht : nlFree t) (hc : nlFree c) :
    nlFree (generateSequenceName t c) :=
  nlFree_append (nlFree_append (nlFree_append ht (by decide)) hc) (by decide)

theorem nlFree_generateEnumName {t c : String} (r : Bool) (ht : nlFree t) (hc : nlFree c) :
    nlFree (generateEnumName t c r) := by
  unfold generateEnumName
  cases r
  · exact nlFree_append
      (nlFree_append (nlFree_append (nlFree_append (by decide) ht) (by decide)) hc) (by decide)
  · exact nlFree_append
      (nlFree_append (nlFree_append (nlFree_append (by decide) ht) (by decide)) hc) (by decide)

theorem endsSemi_append {a b : String} (h : endsSemi b = true) : endsSemi (a ++ b) = true := by
  unfold endsSemi at h ⊢
  rw [String.data_append, List.reverse_append, List.dropWhile_append]
  cases hd : b.data.reverse.dropWhile (fun c => c == ' ') with
  | nil => rw [hd] at h; simp at h
  | cons x xs =>
    rw [hd] at h
    simp only [List.head?] at h
    simp only [List.isEmpty_cons, Bool.false_eq_true, if_false, List.cons_append, List.head?]
    exact h

theorem ne_of_getElem? {a b : String} (i : Nat) (h : a.data[i]? ≠ b.data[i]?) : a ≠ b := by
  intro he
  exact h (by rw [he])

theorem headLit_getElem? (lit r : String) (i : Nat) (c : Char)
    (h1 : i < lit.data.length) (h2 : lit.data[i]? = some c) :
    (lit ++ r).data[i]? = some c := by
  rw [String.data_append, List.getElem?_append_left h1]
  exact h2

theorem nlFree_toSql {t : Postgres.DataType} (h : dtNlFree t) : nlFree t.toSql := by
  induction t with
  | enum n vs => exact h.1
  | array e ih => exact nlFree_append (ih h) (by decide)
  | other s => exact h

theorem nlFree_commentStmt {table : TableReference} {c : String} {co : Option String}
    (hT : tableNlFree table) (hc : nlFree c) (hco : ∀ x, co = some x → nlFree x) :
    nlFree (Postgres.commentStmt table c co) := by
  refine nlFree_append (by decide) ?_
  cases co with
  | none =>
    exact nlFree_append (nlFree_append (nlFree_append (nlFree_quoteTable hT) (by decide))
      (nlFree_quoteIdentifier hc)) (by decide)
  | some v =>
    exact nlFree_append (nlFree_append (nlFree_append (nlFree_quoteTable hT) (by decide))
      (nlFree_quoteIdentifier hc))
      (nlFree_append (nlFree_append (by decide) (nlFree_escapeString (hco v rfl))) (by decide))

theorem nlFree_seqCreateStmt {table : TableReference} {c : String}
    (hT : tableNlFree table) (hc : nlFree c) :
    nlFree (Postgres.seqCreateStmt table c) := by
  unfold Postgres.seqCreateStmt
  intro hm
  simp only [String.data_append, List.mem_append, or_assoc] at hm
  rcases hm with h | h | h | h | h | h
  · exact absurd h (by decide)
  · exact nlFree_quoteIdentifier (nlFree_generateSequenceName hT.1 hc) h
  · exact absurd h (by decide)
  · exact nlFree_quoteTable hT h
  · exact absurd h (by decide)
  rcases h with h | h
  · exact nlFree_quoteIdentifier hc h
  · exact absurd h (by decide)

theorem nlFree_renameEnumStmt {table : TableReference} {c : String}
    (hT : tableNlFree table) (hc : nlFree c) :
    nlFree (Postgres.renameEnumStmt table c) := by
  unfold Postgres.renameEnumStmt
  intro hm
  simp only [String.data_append, List.mem_append, or_assoc] at hm
  rcases hm with h | h | h | h | h | h
  · exact absurd h (by decide)
  · exact nlFree_quoteIdentifier hT.2 h
  · exact absurd h (by decide)
  · exact nlFree_quoteIdentifier (nlFree_generateEnumName true hT.1 hc) h
  · exact absurd h (by decide)
  rcases h with h | h
  · exact nlFree_quoteIdentifier (nlFree_generateEnumName false hT.1 hc) h
  · exact absurd h (by decide)

theorem nlFree_dropEnumQuery {schema n : String} (hs : nlFree schema) (hn : nlFree n) :
    nlFree (Postgres.dropEnumQuery schema n) := by
  unfold Postgres.dropEnumQuery
  intro hm
  simp only [String.data_append, List.mem_append, or_assoc] at hm
  rcases hm with h | h | h | h | h
  · exact absurd h (by decide)
  · exact nlFree_quoteIdentifier hs h
  · exact absurd h (by decide)
  · exact nlFree_quoteIdentifier hn h
  · exact absurd h (by decide)

theorem nlFree_createEnumSql {schema n : String} {vs : List String}
    (hs : nlFree schema) (hn : nlFree n) (hvs : ∀ v ∈ vs, nlFree v) :
    nlFree (Postgres.createEnumSql schema n vs) := by
  unfold Postgres.createEnumSql
  have hbody : nlFree ("BEGIN CREATE TYPE " ++ quoteIdentifier schema ++ "." ++
      quoteIdentifier n ++ "  AS " ++
      ("ENUM(" ++ joinWith ", " (vs.map escapeString) ++ ")") ++
      "; EXCEPTION WHEN duplicate_object THEN null; END") := by
    intro hm
    simp only [String.data_append, List.mem_append, or_assoc] at hm
    rcases hm with h | h | h | h | h | h | h | h | h
    · exact absurd h (by decide)
    · exact nlFree_quoteIdentifier hs h
    · exact absurd h (by decide)
    · exact nlFree_quoteIdentifier hn h
    · exact absurd h (by decide)
    · exact absurd h (by decide)
    · refine nlFree_joinWith (by decide) ?_ h
      intro s hs'
      rcases List.mem_map.mp hs' with ⟨v, hv, rfl⟩
      exact nlFree_escapeString (hvs v hv)
    · exact absurd h (by decide)
    · exact absurd h (by decide)
  intro hm
  simp only [String.data_append, List.mem_append, or_assoc] at hm
  rcases hm with h | h | h
  · exact absurd h (by decide)
  · exact nlFree_escapeString hbody h
  · exact absurd h (by decide)

theorem nlFree_abstractChangeColumnsQuery {table : TableReference}
    {defs : List (String × Postgres.NormalizedColDef)}
    (hT : tableNlFree table) (hD : ∀ p ∈ defs, defNlFree p) :
    nlFree (Postgres.abstractChangeColumnsQuery table defs) := by
  unfold Postgres.abstractChangeColumnsQuery
  by_cases he : (defs.filterMap (fun p =>
      match p.2.type? with
      | some t => some ("ALTER COLUMN " ++ quoteIdentifier p.1 ++ " SET DATA TYPE " ++ t.toSql)
      | none => none)).isEmpty
  · rw [if_pos he]; decide
  · rw [if_neg he]
    refine nlFree_append (by decide) ?_
    refine nlFree_append (nlFree_append (nlFree_append (nlFree_quoteTable hT) (by decide)) ?_)
      (by decide)
    refine nlFree_joinWith (by decide) ?_
    intro s hsm
    rcases List.mem_filterMap.mp hsm with ⟨p, hp, heq⟩
    rcases hty : p.2.type? with _ | t
    · rw [hty] at heq; exact absurd heq (by simp)
    · rw [hty] at heq
      simp only [Option.some.injEq] at heq
      subst heq
      have hd := hD p hp
      have htf : dtNlFree t := by
        have h2 := hd.2.2
        rw [hty] at h2
        exact h2
      intro hm
      simp only [String.data_append, List.mem_append, or_assoc] at hm
      rcases hm with h | h | h | h
      · exact absurd h (by decide)
      · exact nlFree_quoteIdentifier hd.1 h
      · exact absurd h (by decide)
      · exact nlFree_toSql htf h

theorem endsSemi_commentStmt (table : TableReference) (c : String) (co : Option String) :
    endsSemi (Postgres.commentStmt table c co) = true := by
  unfold Postgres.commentStmt
  cases co with
  | none => exact endsSemi_append (endsSemi_append (by decide))
  | some v =>
    show endsSemi ("COMMENT ON COLUMN " ++
      (quoteTable table ++ "." ++ quoteIdentifier c ++ (" IS " ++ escapeString v ++ ";"))) = true
    exact endsSemi_append (endsSemi_append (endsSemi_append (by decide)))

theorem endsSemi_seqCreateStmt (table : TableReference) (c : String) :
    endsSemi (Postgres.seqCreateStmt table c) = true := by
  unfold Postgres.seqCreateStmt
  exact endsSemi_append (endsSemi_append (by decide))

theorem endsSemi_renameEnumStmt (table : TableReference) (c : String) :
    endsSemi (Postgres.renameEnumStmt table c) = true := by
  unfold Postgres.renameEnumStmt
  exact endsSemi_append (endsSemi_append (by decide))

theorem endsSemi_dropEnumQuery (schema n : String) :
    endsSemi (Postgres.dropEnumQuery schema n) = true := by
  unfold Postgres.dropEnumQuery
  exact endsSemi_append (endsSemi_append (by decide))

theorem endsSemi_createEnumSql (schema n : String) (vs : List String) :
    endsSemi (Postgres.createEnumSql schema n vs) = true := by
  unfold Postgres.createEnumSql
  exact endsSemi_append (endsSemi_append (by decide))

theorem endsSemi_abstractChangeColumnsQuery (table : TableReference)
    (defs : List (String × Postgres.NormalizedColDef))
    (h : Postgres.abstractChangeColumnsQuery table defs ≠ "") :
    endsSemi (Postgres.abstractChangeColumnsQuery table defs) = true := by
  unfold Postgres.abstractChangeColumnsQuery at h ⊢
  by_cases he : (defs.filterMap (fun p =>
      match p.2.type? with
      | some t => some ("ALTER COLUMN " ++ quoteIdentifier p.1 ++ " SET DATA TYPE " ++ t.toSql)
      | none => none)).isEmpty
  · rw [if_pos he] at h; exact absurd rfl h
  · rw [if_neg he]
    exact endsSemi_append (endsSemi_append (by decide))

/-! Shape lemmas for the Postgres `changeColumnsQuery` loop. -/

theorem processColumn_ok (table : TableReference) (out : List String)
    (p : String × Postgres.NormalizedColDef)
    (h : Postgres.isBadEnumCol p.2.type? = false) :
    Postgres.processColumn table out p =
      Except.ok (Postgres.colFront table p ++ out ++ Postgres.colBack table p) := by
  obtain ⟨c, d⟩ := p
  obtain ⟨ty, ai, cm⟩ := d
  unfold Postgres.processColumn Postgres.colFront Postgres.colBack
  cases ty with
  | none =>
    cases ai <;> cases cm <;> simp [Postgres.DataType.isEnum]
  | some dt =>
    cases dt with
    | enum n vs =>
      cases ai <;> cases cm <;>
        simp [Postgres.DataType.isEnum, Postgres.DataType.isArrayOfEnum,
          Postgres.createEnumQuery, Postgres.getForce]
    | array e =>
      cases e with
      | enum n vs => simp [Postgres.isBadEnumCol] at h
      | array e2 =>
        cases ai <;> cases cm <;>
          simp [Postgres.DataType.isEnum, Postgres.DataType.isArrayOfEnum]
      | other s =>
        cases ai <;> cases cm <;>
          simp [Postgres.DataType.isEnum, Postgres.DataType.isArrayOfEnum]
    | other s =>
      cases ai <;> cases cm <;>
        simp [Postgres.DataType.isEnum, Postgres.DataType.isArrayOfEnum]

theorem processColumn_bad (table : TableReference) (out : List String)
    (p : String × Postgres.NormalizedColDef)
    (h : Postgres.isBadEnumCol p.2.type? = true) :
    Postgres.processColumn table out p =
      Except.error (QueryError.typeMismatch
        "createEnumQuery expects an instance of the ENUM DataType") := by
  obtain ⟨c, d⟩ := p
  obtain ⟨ty, ai, cm⟩ := d
  cases ty with
  | none => simp [Postgres.isBadEnumCol] at h
  | some dt =>
    cases dt with
    | enum n vs => simp [Postgres.isBadEnumCol] at h
    | array e =>
      cases e with
      | enum n vs =>
        unfold Postgres.processColumn
        simp [Postgres.DataType.isEnum, Postgres.DataType.isArrayOfEnum,
          Postgres.createEnumQuery]
      | array e2 => simp [Postgres.isBadEnumCol] at h
      | other s => simp [Postgres.isBadEnumCol] at h
    | other s => simp [Postgres.isBadEnumCol] at h

theorem foldlM_processColumn (table : TableReference) :
    ∀ (defs : List (String × Postgres.NormalizedColDef)) (out : List String),
      (∀ p ∈ defs, Postgres.isBadEnumCol p.2.type? = false) →
      List.foldlM (Postgres.processColumn table) out defs =
        Except.ok ((defs.reverse.map (Postgres.colFront table)).flatten ++ out ++
          (defs.map (Postgres.colBack table)).flatten) := by
  intro defs
  induction defs with
  | nil =>
    intro out h
    simp only [List.foldlM, List.reverse_nil, List.map_nil, List.flatten_nil,
      List.nil_append, List.append_nil]
    rfl
  | cons p ds ih =>
    intro out h
    rw [List.foldlM_cons, processColumn_ok table out p (h p (List.mem_cons_self p ds))]
    have hbind : ∀ (x : List String)
        (f : List String → Except QueryError (List String)),
        (Except.ok x >>= f) = f x := fun _ _ => rfl
    rw [hbind, ih (Postgres.colFront table p ++ out ++ Postgres.colBack table p)
      (fun q hq => h q (List.mem_cons_of_mem p hq))]
    simp [List.reverse_cons, List.map_append, List.flatten_append, List.append_assoc]

theorem changeColumnsStatements_ok (table : TableReference)
    (defs : List (String × Postgres.NormalizedColDef))
    (hgood : ∀ p ∈ defs, Postgres.isBadEnumCol p.2.type? = false) :
    Postgres.changeColumnsStatements table defs =
      Except.ok ((defs.reverse.map (Postgres.colFront table)).flatten ++
        (if Postgres.abstractChangeColumnsQuery table defs = "" then []
         else [Postgres.abstractChangeColumnsQuery table defs]) ++
        (defs.map (Postgres.colBack table)).flatten) := by
  unfold Postgres.changeColumnsStatements
  exact foldlM_processColumn table defs _ hgood

theorem commentStmt_getElem1 (t : TableReference) (c : String) (co : Option String) :
    (Postgres.commentStmt t c co).data[1]? = some 'O' := by
  unfold Postgres.commentStmt
  exact headLit_getElem? "COMMENT ON COLUMN " _ 1 'O' (by decide) (by decide)

theorem commentStmt_getElem2 (t : TableReference) (c : String) (co : Option String) :
    (Postgres.commentStmt t c co).data[2]? = some 'M' := by
  unfold Postgres.commentStmt
  exact headLit_getElem? "COMMENT ON COLUMN " _ 2 'M' (by decide) (by decide)

theorem seqCreateStmt_getElem1 (t : TableReference) (c : String) :
    (Postgres.seqCreateStmt t c).data[1]? = some 'R' := by
  unfold Postgres.seqCreateStmt
  exact headLit_getElem? "CREATE SEQUENCE IF NOT EXISTS " _ 1 'R' (by decide) (by decide)

theorem renameEnumStmt_getElem1 (t : TableReference) (c : String) :
    (Postgres.renameEnumStmt t c).data[1]? = some 'L' := by
  unfold Postgres.renameEnumStmt
  exact headLit_getElem? "ALTER TYPE " _ 1 'L' (by decide) (by decide)

theorem dropEnumQuery_getElem1 (s n : String) :
    (Postgres.dropEnumQuery s n).data[1]? = some 'R' := by
  unfold Postgres.dropEnumQuery
  exact headLit_getElem? "DROP TYPE IF EXISTS " _ 1 'R' (by decide) (by decide)

theorem createEnumSql_getElem2 (s n : String) (vs : List String) :
    (Postgres.createEnumSql s n vs).data[2]? = some ' ' := by
  unfold Postgres.createEnumSql
  exact headLit_getElem? "DO " _ 2 ' ' (by decide) (by decide)

theorem abstract_shape (table : TableReference)
    (defs : List (String × Postgres.NormalizedColDef)) :
    Postgres.abstractChangeColumnsQuery table defs = "" ∨
      ∃ r, Postgres.abstractChangeColumnsQuery table defs = "ALTER TABLE " ++ r := by
  unfold Postgres.abstractChangeColumnsQuery
  by_cases he : (defs.filterMap (fun p =>
      match p.2.type? with
      | some t => some ("ALTER COLUMN " ++ quoteIdentifier p.1 ++ " SET DATA TYPE " ++ t.toSql)
      | none => none)).isEmpty
  · left; rw [if_pos he]
  · right; rw [if_neg he]; exact ⟨_, rfl⟩

theorem mem_colFront {table : TableReference} {p : String × Postgres.NormalizedColDef}
    {s : String} (h : s ∈ Postgres.colFront table p) :
    (∃ n vs, s = Postgres.createEnumSql table.schema n vs ∧
      p.2.type? = some (Postgres.DataType.enum n vs)) ∨
    (s = Postgres.seqCreateStmt table p.1 ∧ p.2.autoIncrement = true) := by
  unfold Postgres.colFront at h
  rcases List.mem_append.mp h with h | h
  · rcases hty : p.2.type? with _ | dt
    · rw [hty] at h; simp at h
    · rcases dt with ⟨n, vs⟩ | e | s'
      · rw [hty] at h
        simp only [List.mem_singleton] at h
        exact Or.inl ⟨n, vs, h, rfl⟩
      · rw [hty] at h; simp at h
      · rw [hty] at h; simp at h
  · by_cases hai : p.2.autoIncrement
    · rw [if_pos hai] at h
      simp only [List.mem_singleton] at h
      exact Or.inr ⟨h, hai⟩
    · rw [if_neg hai] at h; simp at h

theorem mem_colBack {table : TableReference} {p : String × Postgres.NormalizedColDef}
    {s : String} (h : s ∈ Postgres.colBack table p) :
    (∃ co, s = Postgres.commentStmt table p.1 co ∧ p.2.comment = some co) ∨
    (s = Postgres.dropEnumQuery table.schema (generateEnumName table.tableName p.1 false)) ∨
    (s = Postgres.renameEnumStmt table p.1) := by
  unfold Postgres.colBack at h
  rcases List.mem_append.mp h with h | h
  · rcases hcm : p.2.comment with _ | co
    · rw [hcm] at h; simp at h
    · rw [hcm] at h
      simp only [List.mem_singleton] at h
      exact Or.inl ⟨co, h, rfl⟩
  · rcases hty : p.2.type? with _ | dt
    · rw [hty] at h; simp at h
    · rcases dt with ⟨n, vs⟩ | e | s'
      · rw [hty] at h
        rcases List.mem_cons.mp h with h | h
        · exact Or.inr (Or.inl h)
        · simp only [List.mem_singleton] at h
          exact Or.inr (Or.inr h)
      · rw [hty] at h; simp at h
      · rw [hty] at h; simp at h

theorem seq_mem_colFront {table : TableReference} {p : String × Postgres.NormalizedColDef}
    (h : p.2.autoIncrement = true) :
    Postgres.seqCreateStmt table p.1 ∈ Postgres.colFront table p := by
  unfold Postgres.colFront
  rw [h]
  simp

theorem comment_mem_colBack {table : TableReference} {p : String × Postgres.NormalizedColDef}
    {co : Option String} (h : p.2.comment = some co) :
    Postgres.commentStmt table p.1 co ∈ Postgres.colBack table p := by
  unfold Postgres.colBack
  rw [h]
  simp

theorem getOpt_cons_ne (k : String) (v : Bool) (o : List (String × Bool)) (key : String)
    (h : k ≠ key) : getOpt (some ((k, v) :: o)) key = getOpt (some o) key := by
  simp only [getOpt]
  rw [List.lookup_cons]
  rw [show (key == k) = false from beq_eq_false_iff_ne.mpr (fun he => h he.symm)]

/-! Claim theorems. -/

/-- C1: for every table reference and index name, calling the Postgres
`removeIndexQuery` with options having both `cascade` and `concurrently` set
fails with the configuration error before any SQL fragment of the statement
is assembled — the result is the error, so no SQL string is returned. -/
theorem pg_removeIndexQuery_cascade_concurrently_rejected
    (tableName : TableReference) (idx : Sum String (List String)) (opts : Option OptionsBag)
    (hc : getOpt opts "cascade" = true) (hcc : getOpt opts "concurrently" = true) :
    Postgres.removeIndexQuery tableName idx opts =
      Except.error (QueryError.configuration
        "Cannot specify both concurrently and cascade options in removeIndexQuery for postgres dialect") := by
  unfold Postgres.removeIndexQuery
  rw [hc, hcc]
  rfl

/-- C1 witness: the rejection at a concrete call. -/
theorem pg_removeIndexQuery_cascade_concurrently_rejected_witness :
    getOpt (some [("cascade", true), ("concurrently", true)]) "cascade" = true ∧
    getOpt (some [("cascade", true), ("concurrently", true)]) "concurrently" = true ∧
    Postgres.removeIndexQuery ⟨"users", "public"⟩ (Sum.inl "users_idx")
      (some [("cascade", true), ("concurrently", true)]) =
      Except.error (QueryError.configuration
        "Cannot specify both concurrently and cascade options in removeIndexQuery for postgres dialect") :=
  ⟨by decide, by decide,
    pg_removeIndexQuery_cascade_concurrently_rejected _ _ _ (by decide) (by decide)⟩

/-- C2 counterexample: the Postgres `removeIndexQuery` does not reject an
option key outside any supported set — a call with the unrecognized key
`invalidOption` silently succeeds and returns SQL instead of failing. -/
theorem pg_removeIndexQuery_ignores_unknown_option :
    Postgres.removeIndexQuery ⟨"t", "public"⟩ (Sum.inl "idx")
      (some [("invalidOption", true)]) =
      Except.ok "DROP INDEX \"public\".\"idx\"" := by
  rfl

/-- C2 (amended): the MariaDB `removeIndexQuery` rejects, at call time, every
option key outside its supported set (only `ifExists`), with an error naming
the invalid keys; the Postgres `removeIndexQuery` performs no such key
validation — a key outside the supportable set is silently ignored and does
not change the result. -/
theorem removeIndexQuery_option_validation :
    (∀ (tableName : TableReference) (idx : Sum String (List String)) (o : OptionsBag),
      invalidOptionKeys REMOVE_INDEX_QUERY_SUPPORTED_OPTIONS o ≠ [] →
      MariaDb.removeIndexQuery tableName idx (some o) =
        Except.error (QueryError.configuration
          ("The following options are not supported by removeIndexQuery in mariadb dialect: "
            ++ joinWith ", " (invalidOptionKeys REMOVE_INDEX_QUERY_SUPPORTED_OPTIONS o)))) ∧
    (∀ (tableName : TableReference) (idx : Sum String (List String)) (k : String) (v : Bool)
      (o : OptionsBag), k ∉ REMOVE_INDEX_QUERY_SUPPORTABLE_OPTIONS →
      Postgres.removeIndexQuery tableName idx (some ((k, v) :: o)) =
        Postgres.removeIndexQuery tableName idx (some o)) := by
  constructor
  · intro tableName idx o h
    have hne : (invalidOptionKeys REMOVE_INDEX_QUERY_SUPPORTED_OPTIONS o).isEmpty = false := by
      simpa [List.isEmpty_eq_false] using h
    simp only [MariaDb.removeIndexQuery, rejectInvalidOptions, hne, Bool.false_eq_true,
      if_false]
    rfl
  · intro tableName idx k v o hk
    have h1 : k ≠ "concurrently" := by intro he; exact hk (by rw [he]; decide)
    have h2 : k ≠ "ifExists" := by intro he; exact hk (by rw [he]; decide)
    have h3 : k ≠ "cascade" := by intro he; exact hk (by rw [he]; decide)
    unfold Postgres.removeIndexQuery
    rw [getOpt_cons_ne k v o "cascade" h3, getOpt_cons_ne k v o "concurrently" h1,
      getOpt_cons_ne k v o "ifExists" h2]

/-- C2 witness: the MariaDB rejection and the Postgres indifference at
concrete calls. -/
theorem removeIndexQuery_option_validation_witness :
    MariaDb.removeIndexQuery ⟨"t", "public"⟩ (Sum.inl "idx") (some [("cascade", true)]) =
      Except.error (QueryError.configuration
        ("The following options are not supported by removeIndexQuery in mariadb dialect: "
          ++ joinWith ", " (invalidOptionKeys REMOVE_INDEX_QUERY_SUPPORTED_OPTIONS
            [("cascade", true)]))) ∧
    Postgres.removeIndexQuery ⟨"t", "public"⟩ (Sum.inl "idx")
      (some [("invalidOpt", true)]) =
      Postgres.removeIndexQuery ⟨"t", "public"⟩ (Sum.inl "idx") (some []) :=
  ⟨removeIndexQuery_option_validation.1 _ _ _ (by decide),
   removeIndexQuery_option_validation.2 _ _ "invalidOpt" true [] (by decide)⟩

/-- C5 counterexample: when the executor yields two rows, the call does not
raise an assertion failure — the plain-mode result is the first row, the
non-null assertion passes and the first row is returned. -/
theorem fetchDatabaseVersionRaw_two_rows_returns :
    fetchDatabaseVersionRaw (fun _ => ["15.1", "15.2"]) Postgres.versionQuery =
      Except.ok "15.1" := rfl

/-- C5 (amended): `fetchDatabaseVersionRaw` raises the assertion failure
exactly when the executor yields zero rows; when it yields one or more rows
the call returns the first row (the multi-row case is not detected). -/
theorem fetchDatabaseVersionRaw_plain_behavior :
    (∀ (exec : String → List String) (q : String), exec q = [] →
      fetchDatabaseVersionRaw exec q = Except.error (QueryError.assertion "out != null")) ∧
    (∀ (exec : String → List String) (q r : String) (rs : List String), exec q = r :: rs →
      fetchDatabaseVersionRaw exec q = Except.ok r) := by
  constructor
  · intro exec q h
    unfold fetchDatabaseVersionRaw queryRawPlain
    rw [h]
    rfl
  · intro exec q r rs h
    unfold fetchDatabaseVersionRaw queryRawPlain
    rw [h]
    rfl

/-- C5 witness: the zero-row assertion failure and a one-row success at
concrete executors. -/
theorem fetchDatabaseVersionRaw_plain_behavior_witness :
    fetchDatabaseVersionRaw (fun _ => []) Postgres.versionQuery =
      Except.error (QueryError.assertion "out != null") ∧
    fetchDatabaseVersionRaw (fun _ => ["16.0"]) MariaDb.versionQuery = Except.ok "16.0" :=
  ⟨fetchDatabaseVersionRaw_plain_behavior.1 _ _ rfl,
   fetchDatabaseVersionRaw_plain_behavior.2 _ _ "16.0" [] rfl⟩

/-- C6: `addValueToEnumQuery` always produces the idempotent
`ALTER TYPE ... ADD VALUE IF NOT EXISTS` statement; with `before` set the
`BEFORE` clause is appended and `after` is ignored (not rejected), with
neither set there is no positioning clause, and a call with both set equals
the call with only `before` set. -/
theorem pg_addValueToEnumQuery_spec :
    (∀ (schema enumName value b : String) (a : Option String),
      Postgres.addValueToEnumQuery schema enumName value ⟨some b, a⟩ =
        ("ALTER TYPE  " ++ (quoteIdentifier schema ++ "." ++ quoteIdentifier enumName
          ++ " ADD VALUE IF NOT EXISTS " ++ escapeString value)) ++ " BEFORE "
          ++ escapeString b) ∧
    (∀ (schema enumName value : String),
      Postgres.addValueToEnumQuery schema enumName value ⟨none, none⟩ =
        "ALTER TYPE  " ++ (quoteIdentifier schema ++ "." ++ quoteIdentifier enumName
          ++ " ADD VALUE IF NOT EXISTS " ++ escapeString value)) ∧
    (∀ (schema enumName value b a : String),
      Postgres.addValueToEnumQuery schema enumName value ⟨some b, some a⟩ =
        Postgres.addValueToEnumQuery schema enumName value ⟨some b, none⟩) :=
  ⟨fun _ _ _ _ _ => rfl, fun _ _ _ => rfl, fun _ _ _ _ _ => rfl⟩

/-- C7: for a non-empty path, the Postgres `jsonPathExtractionQuery` returns
the unmodified input expression followed by the operator and the escaped
path: a one-segment path uses the single-level accessor with the segment
escaped as-is, a longer path uses the multi-level operator with the path
escaped as an array in which every segment (numeric indices included) has
been converted to a string. -/
theorem pg_jsonPathExtractionQuery_spec (e : String) (p : List Postgres.JsonSegment)
    (u : Bool) :
    (∀ s, p = [s] → Postgres.jsonPathExtractionQuery e p u =
      e ++ (if u then "->>" else "->") ++ Postgres.escapeSegment s) ∧
    (2 ≤ p.length → Postgres.jsonPathExtractionQuery e p u =
      e ++ (if u then "#>>" else "#>") ++ escapeStringList (p.map Postgres.segToString)) := by
  constructor
  · rintro s rfl
    rfl
  · intro h
    have hlen : ¬(p.length = 1) := by omega
    simp [Postgres.jsonPathExtractionQuery, hlen]

/-- C7 witness: the two operator choices at concrete paths. -/
theorem pg_jsonPathExtractionQuery_spec_witness :
    Postgres.jsonPathExtractionQuery "col" [Postgres.JsonSegment.num 0] true =
      "col" ++ "->>" ++ Postgres.escapeSegment (Postgres.JsonSegment.num 0) ∧
    Postgres.jsonPathExtractionQuery "col"
        [Postgres.JsonSegment.str "a", Postgres.JsonSegment.num 0] false =
      "col" ++ "#>" ++ escapeStringList
        ([Postgres.JsonSegment.str "a", Postgres.JsonSegment.num 0].map Postgres.segToString) :=
  ⟨(pg_jsonPathExtractionQuery_spec "col" [Postgres.JsonSegment.num 0] true).1
      (Postgres.JsonSegment.num 0) rfl,
   (pg_jsonPathExtractionQuery_spec "col"
      [Postgres.JsonSegment.str "a", Postgres.JsonSegment.num 0] false).2 (by decide)⟩

/-- C8: in both dialect generators, the unquoting and non-unquoting variants
of `jsonPathExtractionQuery` differ only by the unquote wrapper/operator
around the same extraction: Postgres appends `>` to the same base operator on
identical operands, MariaDB swaps the `json_unquote` wrapper for the inert
`json_compact` wrapper around the identical `json_extract` call. -/
theorem jsonPathExtraction_unquote_wrapper_only (e : String)
    (p : List Postgres.JsonSegment) :
    (∃ ps, Postgres.jsonPathExtractionQuery e p false =
        e ++ (if p.length = 1 then "->" else "#>") ++ ps ∧
      Postgres.jsonPathExtractionQuery e p true =
        e ++ (if p.length = 1 then "->>" else "#>>") ++ ps ∧
      (if p.length = 1 then "->>" else "#>>") =
        (if p.length = 1 then "->" else "#>") ++ ">") ∧
    (∃ q, MariaDb.jsonPathExtractionQuery e p true = "json_unquote(" ++ q ++ ")" ∧
      MariaDb.jsonPathExtractionQuery e p false = "json_compact(" ++ q ++ ")") := by
  constructor
  · refine ⟨if h : p.length = 1 then Postgres.escapeSegment (p.get ⟨0, by omega⟩)
      else escapeStringList (p.map Postgres.segToString), ?_, ?_, ?_⟩
    · by_cases h : p.length = 1 <;> simp [Postgres.jsonPathExtractionQuery, h]
    · by_cases h : p.length = 1 <;> simp [Postgres.jsonPathExtractionQuery, h]
    · by_cases h : p.length = 1 <;> simp [h]
  · exact ⟨"json_extract(" ++ e ++ "," ++ escapeString (MariaDb.buildJsonPath p) ++ ")",
      rfl, rfl⟩

/-- C9: `createEnumQuery` fails synchronously with the type-mismatch error
for every data type that is not an ENUM instance, returning no SQL; for an
ENUM data type it returns the idempotent DO-block creation statement
(whose body swallows the `duplicate_object` error), preceded by the drop
statement exactly when `force` is set. -/
theorem pg_createEnumQuery_spec :
    (∀ (table : TableReference) (dt : Postgres.DataType)
      (o : Option Postgres.CreateEnumQueryOptions),
      dt.isEnum = false →
      Postgres.createEnumQuery table dt o =
        Except.error (QueryError.typeMismatch
          "createEnumQuery expects an instance of the ENUM DataType")) ∧
    (∀ (table : TableReference) (n : String) (vs : List String)
      (o : Option Postgres.CreateEnumQueryOptions),
      Postgres.createEnumQuery table (Postgres.DataType.enum n vs) o =
        Except.ok (if Postgres.getForce o = true
          then Postgres.dropEnumQuery table.schema n ++ Postgres.createEnumSql table.schema n vs
          else Postgres.createEnumSql table.schema n vs)) := by
  constructor
  · intro table dt o h
    cases dt with
    | enum n vs => simp [Postgres.DataType.isEnum] at h
    | array e => rfl
    | other s => rfl
  · intro table n vs o
    by_cases hf : Postgres.getForce o = true <;>
      simp [Postgres.createEnumQuery, hf]

/-- C9 witness: the type-mismatch rejection at a concrete non-enum type and
the enum success at a concrete enum type. -/
theorem pg_createEnumQuery_spec_witness :
    Postgres.createEnumQuery ⟨"t", "s"⟩ (Postgres.DataType.other "integer") none =
      Except.error (QueryError.typeMismatch
        "createEnumQuery expects an instance of the ENUM DataType") ∧
    Postgres.createEnumQuery ⟨"t", "s"⟩ (Postgres.DataType.enum "e" ["a"]) none =
      Except.ok (Postgres.createEnumSql "s" "e" ["a"]) :=
  ⟨pg_createEnumQuery_spec.1 _ _ none rfl,
   pg_createEnumQuery_spec.2 ⟨"t", "s"⟩ "e" ["a"] none⟩

/-- C3 (evaluation at the failing input): a column definition whose new type
is an array of enums takes the enum branch of `changeColumnsQuery`, but the
`createEnumQuery` call inside it throws the type-mismatch error because an
ARRAY instance is not an ENUM instance — no statement batch is produced. -/
theorem pg_changeColumnsQuery_array_enum_throws :
    Postgres.changeColumnsQuery ⟨"users", "public"⟩
      [("role", ⟨some (Postgres.DataType.array
        (Postgres.DataType.enum "enum_users_role_new" ["a", "b"])), false, none⟩)] =
      Except.error (QueryError.typeMismatch
        "createEnumQuery expects an instance of the ENUM DataType") := by
  rfl

/-- C4: for every column-definition mapping on which the call succeeds (no
array-of-enum definition) and which produces a column-alter statement, the
Postgres `changeColumnsQuery` returns the single space-joined, newline-free
(for newline-free inputs) string of semicolon-terminated statements in which
every statement before the column-alter statement is a sequence-creation or
enum-creation statement (so all comment statements follow the alter), every
auto-increment column contributes its `CREATE SEQUENCE` statement before the
alter, every `comment` key contributes its COMMENT statement after the alter,
and the sequence-creation statement binds the sequence's ownership to the
table column with `OWNED BY`. -/
theorem pg_changeColumnsQuery_batch_shape (table : TableReference)
    (defs : List (String × Postgres.NormalizedColDef))
    (hgood : ∀ p ∈ defs, Postgres.isBadEnumCol p.2.type? = false)
    (halter : Postgres.abstractChangeColumnsQuery table defs ≠ "")
    (hT : tableNlFree table) (hD : ∀ p ∈ defs, defNlFree p) :
    ∃ stmts front back,
      Postgres.changeColumnsStatements table defs = Except.ok stmts ∧
      Postgres.changeColumnsQuery table defs = Except.ok (joinWith " " stmts) ∧
      nlFree (joinWith " " stmts) ∧
      (∀ s ∈ stmts, endsSemi s = true) ∧
      stmts = front ++ Postgres.abstractChangeColumnsQuery table defs :: back ∧
      (∀ s ∈ front,
        (∃ c, s = Postgres.seqCreateStmt table c) ∨
        (∃ n vs, s = Postgres.createEnumSql table.schema n vs)) ∧
      (∀ p ∈ defs, p.2.autoIncrement = true → Postgres.seqCreateStmt table p.1 ∈ front) ∧
      (∀ p ∈ defs, ∀ co, p.2.comment = some co →
        Postgres.commentStmt table p.1 co ∈ back) ∧
      (∀ c, Postgres.seqCreateStmt table c =
        "CREATE SEQUENCE IF NOT EXISTS " ++
          (quoteIdentifier (generateSequenceName table.tableName c) ++
            " OWNED BY " ++ quoteTable table ++ "." ++ quoteIdentifier c ++ ";")) := by
  have hstmts := changeColumnsStatements_ok table defs hgood
  rw [if_neg halter, List.append_assoc, List.singleton_append] at hstmts
  have hFmem : ∀ s ∈ (defs.reverse.map (Postgres.colFront table)).flatten,
      ∃ p, p ∈ defs ∧ s ∈ Postgres.colFront table p := by
    intro s hs
    rcases List.mem_flatten.mp hs with ⟨l, hl, hsl⟩
    rcases List.mem_map.mp hl with ⟨p, hp, rfl⟩
    exact ⟨p, List.mem_reverse.mp hp, hsl⟩
  have hBmem : ∀ s ∈ (defs.map (Postgres.colBack table)).flatten,
      ∃ p, p ∈ defs ∧ s ∈ Postgres.colBack table p := by
    intro s hs
    rcases List.mem_flatten.mp hs with ⟨l, hl, hsl⟩
    rcases List.mem_map.mp hl with ⟨p, hp, rfl⟩
    exact ⟨p, hp, hsl⟩
  have hnl : ∀ s ∈ (defs.reverse.map (Postgres.colFront table)).flatten ++
      Postgres.abstractChangeColumnsQuery table defs ::
      (defs.map (Postgres.colBack table)).flatten, nlFree s := by
    intro s hs
    rcases List.mem_append.mp hs with hs | hs
    · obtain ⟨p, hp, hcf⟩ := hFmem s hs
      rcases mem_colFront hcf with ⟨n, vs, rfl, hty⟩ | ⟨rfl, hai⟩
      · have hd := (hD p hp).2.2
        rw [hty] at hd
        exact nlFree_createEnumSql hT.2 hd.1 hd.2
      · exact nlFree_seqCreateStmt hT (hD p hp).1
    · rcases List.mem_cons.mp hs with rfl | hs
      · exact nlFree_abstractChangeColumnsQuery hT hD
      · obtain ⟨p, hp, hcb⟩ := hBmem s hs
        rcases mem_colBack hcb with ⟨co, rfl, hcm⟩ | rfl | rfl
        · refine nlFree_commentStmt hT (hD p hp).1 ?_
          intro x hx
          have hopt := (hD p hp).2.1
          rw [hcm, hx] at hopt
          exact hopt
        · exact nlFree_dropEnumQuery hT.2 (nlFree_generateEnumName false hT.1 (hD p hp).1)
        · exact nlFree_renameEnumStmt hT (hD p hp).1
  have hsemi : ∀ s ∈ (defs.reverse.map (Postgres.colFront table)).flatten ++
      Postgres.abstractChangeColumnsQuery table defs ::
      (defs.map (Postgres.colBack table)).flatten, endsSemi s = true := by
    intro s hs
    rcases List.mem_append.mp hs with hs | hs
    · obtain ⟨p, hp, hcf⟩ := hFmem s hs
      rcases mem_colFront hcf with ⟨n, vs, rfl, hty⟩ | ⟨rfl, hai⟩
      · exact endsSemi_createEnumSql table.schema n vs
      · exact endsSemi_seqCreateStmt table p.1
    · rcases List.mem_cons.mp hs with rfl | hs
      · exact endsSemi_abstractChangeColumnsQuery table defs halter
      · obtain ⟨p, hp, hcb⟩ := hBmem s hs
        rcases mem_colBack hcb with ⟨co, rfl, hcm⟩ | rfl | rfl
        · exact endsSemi_commentStmt table p.1 co
        · exact endsSemi_dropEnumQuery table.schema _
        · exact endsSemi_renameEnumStmt table p.1
  refine ⟨_, (defs.reverse.map (Postgres.colFront table)).flatten,
    (defs.map (Postgres.colBack table)).flatten, hstmts, ?_, ?_, hsemi, rfl, ?_, ?_, ?_,
    fun c => rfl⟩
  · unfold Postgres.changeColumnsQuery
    rw [hstmts]
  · exact nlFree_joinWith (by decide) hnl
  · intro s hs
    obtain ⟨p, hp, hcf⟩ := hFmem s hs
    rcases mem_colFront hcf with ⟨n, vs, rfl, hty⟩ | ⟨rfl, hai⟩
    · exact Or.inr ⟨n, vs, rfl⟩
    · exact Or.inl ⟨p.1, rfl⟩
  · intro p hp hai
    exact List.mem_flatten.mpr ⟨Postgres.colFront table p,
      List.mem_map.mpr ⟨p, List.mem_reverse.mpr hp, rfl⟩, seq_mem_colFront hai⟩
  · intro p hp co hcm
    exact List.mem_flatten.mpr ⟨Postgres.colBack table p,
      List.mem_map.mpr ⟨p, hp, rfl⟩, comment_mem_colBack hcm⟩

/-- C4 witness: the batch shape at a concrete auto-increment column change. -/
theorem pg_changeColumnsQuery_batch_shape_witness :
    ∃ stmts front back,
      Postgres.changeColumnsStatements ⟨"users", "public"⟩
        [("n", ⟨some (Postgres.DataType.other "integer"), true, some (some "count")⟩)] =
        Except.ok stmts ∧
      Postgres.changeColumnsQuery ⟨"users", "public"⟩
        [("n", ⟨some (Postgres.DataType.other "integer"), true, some (some "count")⟩)] =
        Except.ok (joinWith " " stmts) ∧
      nlFree (joinWith " " stmts) ∧
      (∀ s ∈ stmts, endsSemi s = true) ∧
      stmts = front ++ Postgres.abstractChangeColumnsQuery ⟨"users", "public"⟩
        [("n", ⟨some (Postgres.DataType.other "integer"), true, some (some "count")⟩)] :: back ∧
      (∀ s ∈ front,
        (∃ c, s = Postgres.seqCreateStmt ⟨"users", "public"⟩ c) ∨
        (∃ n vs, s = Postgres.createEnumSql "public" n vs)) ∧
      (∀ p ∈ [("n", (⟨some (Postgres.DataType.other "integer"), true,
          some (some "count")⟩ : Postgres.NormalizedColDef))],
        p.2.autoIncrement = true →
          Postgres.seqCreateStmt ⟨"users", "public"⟩ p.1 ∈ front) ∧
      (∀ p ∈ [("n", (⟨some (Postgres.DataType.other "integer"), true,
          some (some "count")⟩ : Postgres.NormalizedColDef))],
        ∀ co, p.2.comment = some co →
          Postgres.commentStmt ⟨"users", "public"⟩ p.1 co ∈ back) ∧
      (∀ c, Postgres.seqCreateStmt ⟨"users", "public"⟩ c =
        "CREATE SEQUENCE IF NOT EXISTS " ++
          (quoteIdentifier (generateSequenceName "users" c) ++
            " OWNED BY " ++ quoteTable ⟨"users", "public"⟩ ++ "." ++ quoteIdentifier c ++ ";")) :=
  pg_changeColumnsQuery_batch_shape ⟨"users", "public"⟩
    [("n", ⟨some (Postgres.DataType.other "integer"), true, some (some "count")⟩)]
    (by decide) (by decide) (by decide) (by decide)

/-- C10: in the Postgres `changeColumnsQuery`, a single-column definition
with the `comment` key set to null produces the `COMMENT ... IS NULL`
statement (clearing the comment), whereas a definition with no `comment` key
produces no COMMENT statement at all — the two are distinct behaviours. -/
theorem pg_changeColumns_comment_null_vs_absent (table : TableReference) (col : String)
    (d : Postgres.NormalizedColDef) (stmts : List String)
    (h : Postgres.changeColumnsStatements table [(col, d)] = Except.ok stmts) :
    (d.comment = some none → Postgres.commentStmt table col none ∈ stmts) ∧
    (d.comment = none → ∀ co, Postgres.commentStmt table col co ∉ stmts) := by
  by_cases hbad : Postgres.isBadEnumCol d.type? = true
  · exfalso
    simp only [Postgres.changeColumnsStatements] at h
    rw [List.foldlM_cons, processColumn_bad table _ (col, d) hbad] at h
    exact Except.noConfusion h
  · have hb : Postgres.isBadEnumCol d.type? = false := by
      revert hbad; cases Postgres.isBadEnumCol d.type? <;> simp
    simp only [Postgres.changeColumnsStatements] at h
    rw [List.foldlM_cons, processColumn_ok table _ (col, d) hb] at h
    simp only [List.foldlM_nil] at h
    have h2 : Except.ok (Postgres.colFront table (col, d) ++
        (if Postgres.abstractChangeColumnsQuery table [(col, d)] = "" then []
         else [Postgres.abstractChangeColumnsQuery table [(col, d)]]) ++
        Postgres.colBack table (col, d)) = Except.ok stmts := h
    injection h2 with h3
    subst h3
    constructor
    · intro hcm
      exact List.mem_append.mpr (Or.inr (comment_mem_colBack hcm))
    · intro hcm co hmem
      rcases List.mem_append.mp hmem with hmem | hmem
      · rcases List.mem_append.mp hmem with hmem | hmem
        · rcases mem_colFront hmem with ⟨n, vs, heq, _⟩ | ⟨heq, _⟩
          · have h5 := commentStmt_getElem2 table col co
            rw [heq, createEnumSql_getElem2] at h5
            exact absurd h5 (by decide)
          · have h5 := commentStmt_getElem1 table col co
            rw [heq, seqCreateStmt_getElem1] at h5
            exact absurd h5 (by decide)
        · by_cases habs : Postgres.abstractChangeColumnsQuery table [(col, d)] = ""
          · rw [if_pos habs] at hmem
            simp at hmem
          · rw [if_neg habs] at hmem
            rcases List.mem_singleton.mp hmem with heq
            rcases abstract_shape table [(col, d)] with h0 | ⟨r, hr⟩
            · exact habs h0
            · have h5 := commentStmt_getElem1 table col co
              rw [heq, hr, headLit_getElem? "ALTER TABLE " r 1 'L' (by decide) (by decide)] at h5
              exact absurd h5 (by decide)
      · rcases mem_colBack hmem with ⟨co2, heq, hcm2⟩ | heq | heq
        · rw [hcm] at hcm2
          exact Option.noConfusion hcm2
        · have h5 := commentStmt_getElem1 table col co
          rw [heq, dropEnumQuery_getElem1] at h5
          exact absurd h5 (by decide)
        · have h5 := commentStmt_getElem1 table col co
          rw [heq, renameEnumStmt_getElem1] at h5
          exact absurd h5 (by decide)

/-- C10 witness: a concrete null-comment column change emits the
`IS NULL` comment statement. -/
theorem pg_changeColumns_comment_null_vs_absent_witness :
    Postgres.commentStmt ⟨"t", "s"⟩ "c" none ∈ [Postgres.commentStmt ⟨"t", "s"⟩ "c" none] :=
  (pg_changeColumns_comment_null_vs_absent ⟨"t", "s"⟩ "c" ⟨none, false, some none⟩
    [Postgres.commentStmt ⟨"t", "s"⟩ "c" none] rfl).1 rfl
